import Mathlib

/-!
Verification of the eye-clinic catalog site's data pipeline.

The JavaScript source is shallowly embedded: records are association
lists from normalized column keys to string cell values, the sheet
parser, product/gallery managers and renderers become pure Lean
functions, and the browser's fetch/sessionStorage effects become
explicit inputs (a `FetchOutcome`, an `Option String` store).
-/

/-- JS string truthiness for our string-valued cells: `""` is falsy. -/
def jsTruthy (s : String) : Bool := s != ""

/-- Embedding of JS `s.toLowerCase()` as a character map. -/
def jsToLower (s : String) : String := String.mk (s.toList.map Char.toLower)

/-- Embedding of JS `s.trim()`: strip leading and trailing whitespace. -/
def jsTrim (s : String) : String :=
  String.mk (((s.toList.dropWhile Char.isWhitespace).reverse.dropWhile
    Char.isWhitespace).reverse)

/-- `charsStartWith p l` : does `l` start with `p`?  Boolean analogue of
`List.IsPrefix`, mirroring the character scan of JS `String.prototype.includes`. -/
def charsStartWith : List Char → List Char → Bool
  | x :: xs, y :: ys => x == y && charsStartWith xs ys
  | [], _ => true
  | _, [] => false

/-- `charsContain p l` : does `p` occur as a contiguous run inside `l`?
Boolean analogue of `List.IsInfix`. -/
def charsContain : List Char → List Char → Bool
  | p, [] => charsStartWith p []
  | p, h :: t => charsStartWith p (h :: t) || charsContain p t

/-- Embedding of JS `hay.includes(pat)` (substring containment). -/
def strIncludes (hay pat : String) : Bool := charsContain pat.toList hay.toList

/-- Worker for `collapseWs`: the flag records whether the previous
character was whitespace (i.e. we are inside a run already replaced). -/
def collapseWsAux : Bool → List Char → List Char
  | _, [] => []
  | inRun, c :: cs =>
    if c.isWhitespace then
      if inRun then collapseWsAux true cs else '_' :: collapseWsAux true cs
    else c :: collapseWsAux false cs

/-- Collapse every maximal run of whitespace to a single underscore:
embedding of `.replace(/\s+/g, '_')`. -/
def collapseWs (l : List Char) : List Char := collapseWsAux false l

/-- Header normalization from `GoogleSheetsService.parseSheetData`:
`header.trim().toLowerCase().replace(/\s+/g, '_')`. -/
def normalizeHeader (h : String) : String :=
  String.mk (collapseWs (jsToLower (jsTrim h)).toList)

/-- A Record: one row of sheet data as a field-key/value association list,
modelling the plain JS object built by `parseSheetData`. -/
abbrev Record := List (String × String)

/-- JS property assignment `item[key] = value`: replace an existing binding
in place, else append. -/
def setField : Record → String → String → Record
  | [], k, v => [(k, v)]
  | (k', v') :: rest, k, v =>
    if k' == k then (k, v) :: rest else (k', v') :: setField rest k v

/-- The `headers.forEach((header, index) => ...)` loop of `parseSheetData`:
walk the headers with a running index `i`, assigning
`item[normalize(header)] = row[index] || ''`. -/
def buildRecord : List String → List String → Nat → Record → Record
  | [], _, _, item => item
  | h :: hs, row, i, item =>
    buildRecord hs row (i + 1) (setField item (normalizeHeader h) (row.getD i ""))

/-- One data row of `parseSheetData`'s `rows.map` body. -/
def parseRow (headers row : List String) : Record :=
  buildRecord headers row 0 []

/-- `GoogleSheetsService.parseSheetData(values)`: `none` models a missing
`values` field (`!values`); row 0 is the header, each later row becomes a
record keyed by the normalized headers, with `row[index] || ''` as value. -/
def parseSheetData : Option (List (List String)) → List Record
  | none => []
  | some [] => []
  | some (headers :: rows) => rows.map (parseRow headers)

namespace CONFIG

/-- `CONFIG.PRODUCT_COLUMNS.IMAGE_1` -/
def IMAGE_1 : String := "image_url_1"
/-- `CONFIG.PRODUCT_COLUMNS.IMAGE_2` -/
def IMAGE_2 : String := "image_url_2"
/-- `CONFIG.PRODUCT_COLUMNS.IMAGE_3` -/
def IMAGE_3 : String := "image_url_3"
/-- `CONFIG.PRODUCT_COLUMNS.NAME` -/
def NAME : String := "product_name"
/-- `CONFIG.PRODUCT_COLUMNS.DESCRIPTION` -/
def DESCRIPTION : String := "basic_description"
/-- `CONFIG.PRODUCT_COLUMNS.BRAND` -/
def BRAND : String := "brand_name"
/-- `CONFIG.PRODUCT_COLUMNS.SHAPE` -/
def SHAPE : String := "frame_shape"
/-- `CONFIG.PRODUCT_COLUMNS.MATERIAL` -/
def MATERIAL : String := "material_type"
/-- `CONFIG.GALLERY_COLUMNS.CATEGORY` -/
def CATEGORY : String := "category"
/-- `CONFIG.GALLERY_COLUMNS.NAME` -/
def GALLERY_NAME : String := "surgery_name"

end CONFIG

/-- The JSON body of a successful sheets response: an optional
`error.message` payload and an optional `values` grid. -/
structure SheetResponse where
  error : Option String
  values : Option (List (List String))

/-- The outcome of the browser `fetch` in `GoogleSheetsService.fetchData`:
the promise rejects (`netFail`), resolves with a non-success status
(`httpErr`, i.e. `!response.ok`), or resolves successfully with a JSON
body (`httpOk`). -/
inductive FetchOutcome where
  | netFail (msg : String)
  | httpErr (status : Nat)
  | httpOk (body : SheetResponse)

/-- `GoogleSheetsService.fetchData`: throws (models `Except.error`) on a
rejected fetch, a non-ok status, or an `error` payload; otherwise parses
`data.values`. -/
def fetchData : FetchOutcome → Except String (List Record)
  | .netFail m => .error m
  | .httpErr s => .error ("HTTP error! status: " ++ toString s)
  | .httpOk body =>
    match body.error with
    | some m => .error m
    | none => .ok (parseSheetData body.values)

/-- The mutable fields of `ProductManager`. -/
structure PM where
  products : List Record
  filteredProducts : List Record
deriving DecidableEq

/-- The mutable fields of `GalleryManager`. -/
structure GM where
  galleryItems : List Record
deriving DecidableEq

/-- `ProductManager.loadProducts`: on success stores the fetched list as
both the full list and the filtered view and returns it; on any error
logs and returns `[]`, leaving the state as it was.  The return type is a
plain pair, never an exception: the caller cannot observe a throw. -/
def loadProducts (o : FetchOutcome) (st : PM) : List Record × PM :=
  match fetchData o with
  | .ok l => (l, { products := l, filteredProducts := l })
  | .error _ => ([], st)

/-- `GalleryManager.loadGallery`: same shape as `loadProducts`. -/
def loadGallery (o : FetchOutcome) (st : GM) : List Record × GM :=
  match fetchData o with
  | .ok l => (l, { galleryItems := l })
  | .error _ => ([], st)

/-- One disjunct of the search predicate:
`product[col]?.toLowerCase().includes(searchQuery)`, where a missing
field short-circuits to no match. -/
def fieldIncludes (p : Record) (col : String) (sq : String) : Bool :=
  match p.lookup col with
  | some v => strIncludes (jsToLower v) sq
  | none => false

/-- The five-field disjunction inside `ProductManager.searchProducts`. -/
def productMatches (sq : String) (p : Record) : Bool :=
  fieldIncludes p CONFIG.NAME sq || fieldIncludes p CONFIG.DESCRIPTION sq ||
  fieldIncludes p CONFIG.BRAND sq || fieldIncludes p CONFIG.SHAPE sq ||
  fieldIncludes p CONFIG.MATERIAL sq

/-- `ProductManager.searchProducts(query)`: a falsy (empty) query copies
the full list back into the filtered view; otherwise the full list is
filtered by the lower-cased query.  Returns the new filtered view and
the updated manager state. -/
def searchProducts (query : String) (st : PM) : List Record × PM :=
  if query = "" then
    (st.products, { st with filteredProducts := st.products })
  else
    let searchQuery := jsToLower query
    let f := st.products.filter (productMatches searchQuery)
    (f, { st with filteredProducts := f })

/-- `ProductManager.getProductsForPreview(limit)`: a read-only slice of
the filtered view. -/
def getProductsForPreview (limit : Nat) (st : PM) : List Record :=
  st.filteredProducts.take limit

/-- `ProductManager.getProductById(id)`: a read-only find over the
filtered view on the `id` field. -/
def getProductById (i : String) (st : PM) : Option Record :=
  st.filteredProducts.find? (fun p => p.lookup "id" == some i)

/-- `GalleryManager.getGalleryForPreview(limit)`. -/
def getGalleryForPreview (limit : Nat) (st : GM) : List Record :=
  st.galleryItems.take limit

/-- `GalleryManager.filterByCategory(category)`: a falsy category returns
the full gallery list; otherwise an exact case-insensitive comparison of
`item[CATEGORY]` (missing field never matches) against the category.
`GalleryManager` keeps no filtered view, so this always reads the full
list and its result replaces any previous filtering. -/
def filterByCategory (category : String) (st : GM) : List Record :=
  if category = "" then st.galleryItems
  else
    st.galleryItems.filter (fun item =>
      match item.lookup CONFIG.CATEGORY with
      | some v => jsToLower v == jsToLower category
      | none => false)

/-- The placeholder URL of `UI.getProductImages`. -/
def placeholderImage : String := "https://via.placeholder.com/300x250?text=No+Image"

/-- The three configured image fields, in declared order. -/
def imageFields : List String := [CONFIG.IMAGE_1, CONFIG.IMAGE_2, CONFIG.IMAGE_3]

/-- The `imageFields.forEach` push step of `UI.getProductImages`:
`if (product[field] && product[field].trim()) images.push(product[field].trim())`. -/
def pushImage (p : Record) (images : List String) (field : String) : List String :=
  match p.lookup field with
  | some v => if v ≠ "" ∧ jsTrim v ≠ "" then images ++ [jsTrim v] else images
  | none => images

/-- `UI.getProductImages(product)`: collect the trimmed non-empty image
fields in order, else a single placeholder. -/
def getProductImages (p : Record) : List String :=
  let images := imageFields.foldl (pushImage p) []
  if images.length > 0 then images else [placeholderImage]

/-- The user-facing catalog operations after load (claim C5). -/
inductive Op where
  | preview (limit : Nat)
  | byId (i : String)
  | search (q : String)
deriving DecidableEq

/-- Effect of one operation on the `ProductManager` state:
`getProductsForPreview` and `getProductById` only read the state
(their source bodies contain no assignment), `searchProducts`
reassigns `filteredProducts`. -/
def applyOp : Op → PM → PM
  | .preview _, st => st
  | .byId _, st => st
  | .search q, st => (searchProducts q st).2

/-- Run a sequence of catalog operations. -/
def runOps (ops : List Op) (st : PM) : PM :=
  ops.foldl (fun s op => applyOp op s) st

/-- JSON values, for the `JSON.parse` deserialization step of the
detail-page handoff.  Numbers are restricted to integers: the handoff
payloads serialized by `goToProduct`/`goToSurgery` are string-valued
records, so no claim depends on fractional numbers. -/
inductive Json where
  | null
  | bool (b : Bool)
  | num (n : Int)
  | str (s : String)
  | arr (xs : List Json)
  | obj (fields : List (String × Json))

/-- Opening brace character. -/
def lbrace : Char := Char.ofNat 123

/-- Closing brace character. -/
def rbrace : Char := Char.ofNat 125

/-- The JSON whitespace characters. -/
def isJsonWs (c : Char) : Bool :=
  c == ' ' || c == '\t' || c == '\n' || c == '\r'

/-- Skip insignificant whitespace. -/
def skipWs (cs : List Char) : List Char := cs.dropWhile isJsonWs

/-- Single-character JSON string escapes (the `\uXXXX` form is not
modelled; no claim depends on it). -/
def escTable : List (Char × Char) :=
  [('"', '"'), ('\\', '\\'), ('/', '/'), ('n', '\n'), ('t', '\t'),
   ('r', '\r'), ('b', Char.ofNat 8), ('f', Char.ofNat 12)]

def escChar (c : Char) : Option Char := escTable.lookup c

/-- Parse the body of a JSON string literal after the opening quote;
returns the characters and the remaining input. -/
def strChars : List Char → Option (List Char × List Char)
  | [] => none
  | c :: rest =>
    if c == '"' then some ([], rest)
    else if c == '\\' then
      match rest with
      | [] => none
      | e :: rest2 =>
        match escChar e with
        | some ec => (strChars rest2).map (fun p => (ec :: p.1, p.2))
        | none => none
    else (strChars rest).map (fun p => (c :: p.1, p.2))

/-- Parse a JSON integer literal (optional minus, digits); fractional and
exponent forms are rejected as outside the modelled subset. -/
def parseNum (cs : List Char) : Option (Json × List Char) :=
  let (neg, cs2) := match cs with
    | '-' :: t => (true, t)
    | _ => (false, cs)
  let digits := cs2.takeWhile Char.isDigit
  let rest := cs2.dropWhile Char.isDigit
  if digits.isEmpty then none
  else
    match rest with
    | '.' :: _ => none
    | 'e' :: _ => none
    | 'E' :: _ => none
    | _ =>
      let n : Nat := digits.foldl (fun a c => a * 10 + (c.toNat - 48)) 0
      some (Json.num (if neg then -(n : Int) else (n : Int)), rest)

mutual

/-- Recursive-descent JSON value parser, fuelled by nesting depth. -/
def parseValue : Nat → List Char → Option (Json × List Char)
  | 0, _ => none
  | Nat.succ f, cs =>
    match skipWs cs with
    | 'n' :: 'u' :: 'l' :: 'l' :: rest => some (Json.null, rest)
    | 't' :: 'r' :: 'u' :: 'e' :: rest => some (Json.bool true, rest)
    | 'f' :: 'a' :: 'l' :: 's' :: 'e' :: rest => some (Json.bool false, rest)
    | '"' :: rest => (strChars rest).map (fun p => (Json.str (String.mk p.1), p.2))
    | '[' :: rest =>
      match skipWs rest with
      | ']' :: rest2 => some (Json.arr [], rest2)
      | cs2 => (parseElems f cs2).map (fun p => (Json.arr p.1, p.2))
    | c :: rest =>
      if c == lbrace then
        match skipWs rest with
        | c2 :: rest2 =>
          if c2 == rbrace then some (Json.obj [], rest2)
          else (parseMembers f (c2 :: rest2)).map (fun p => (Json.obj p.1, p.2))
        | [] => none
      else if c == '-' || c.isDigit then parseNum (c :: rest)
      else none
    | [] => none

/-- Parse one-or-more array elements up to the closing bracket. -/
def parseElems : Nat → List Char → Option (List Json × List Char)
  | 0, _ => none
  | Nat.succ f, cs =>
    match parseValue f cs with
    | some (v, rest) =>
      match skipWs rest with
      | ',' :: rest2 => (parseElems f rest2).map (fun p => (v :: p.1, p.2))
      | ']' :: rest2 => some ([v], rest2)
      | _ => none
    | none => none

/-- Parse one-or-more object members up to the closing brace. -/
def parseMembers : Nat → List Char → Option (List (String × Json) × List Char)
  | 0, _ => none
  | Nat.succ f, cs =>
    match skipWs cs with
    | '"' :: rest =>
      match strChars rest with
      | some (key, rest2) =>
        match skipWs rest2 with
        | ':' :: rest3 =>
          match parseValue f rest3 with
          | some (v, rest4) =>
            match skipWs rest4 with
            | ',' :: rest5 =>
              (parseMembers f rest5).map (fun p => ((String.mk key, v) :: p.1, p.2))
            | c :: rest5 =>
              if c == rbrace then some ([(String.mk key, v)], rest5) else none
            | [] => none
          | none => none
        | _ => none
      | none => none
    | _ => none

end

/-- `JSON.parse(s)`: parse one JSON value and require the remainder to be
whitespace; `none` models the thrown `SyntaxError`. -/
def jsonParse (s : String) : Option Json :=
  match parseValue (s.length + 1) s.toList with
  | some (v, rest) => if (skipWs rest).isEmpty then some v else none
  | none => none

/-- JS truthiness on a parsed JSON value (`if (!data)`). -/
def jsonFalsy : Json → Bool
  | .null => true
  | .bool b => !b
  | .num n => n == 0
  | .str s => s == ""
  | _ => false

/-- JS property access `data[key]` on a parsed payload. -/
def jsField (data : Json) (key : String) : Option Json :=
  match data with
  | .obj fs => fs.lookup key
  | _ => none

/-- `data[key] || fallback` for the string-valued handoff fields. -/
def fieldOr (data : Json) (key : String) (fallback : String) : String :=
  match jsField data key with
  | some (.str s) => if s == "" then fallback else s
  | _ => fallback

/-- The fixed markup of `renderProductDetails` when no product is selected. -/
def noProductSelectedHtml : String :=
  "<div class=\"no-results\">No product selected. <a href=\"products.html\">Browse Products</a></div>"

/-- The fixed markup of `renderSurgeryDetails` when no surgery is selected. -/
def noSurgerySelectedHtml : String :=
  "<div class=\"no-results\">No surgery selected. <a href=\"gallery.html\">Browse Gallery</a></div>"

/-- The product detail markup, abridged to the title line; the claims
about the detail path concern only which branch renders, not the full
template text. -/
def productDetailsHtml (data : Json) : String :=
  "<div class=\"detail-grid\"><h2>" ++ fieldOr data CONFIG.NAME "Product" ++ "</h2></div>"

/-- The surgery detail markup, abridged as for products. -/
def surgeryDetailsHtml (data : Json) : String :=
  "<div class=\"detail-grid\"><h2>" ++ fieldOr data CONFIG.GALLERY_NAME "Surgery" ++ "</h2></div>"

/-- `renderProductDetails()`: reads the `selectedProduct` key from
`sessionStorage` (`none` = key absent, in which case `getItem` yields
`null` and `JSON.parse` receives the coerced text `"null"`), parses it,
and renders the "no product selected" markup when the result is falsy.
A malformed payload makes `JSON.parse` throw, modelled as `Except.error`,
which the source does not catch. -/
def renderProductDetails (store : Option String) : Except String String :=
  match jsonParse (store.getD "null") with
  | none => .error "SyntaxError: JSON.parse"
  | some data =>
    if jsonFalsy data then .ok noProductSelectedHtml
    else .ok (productDetailsHtml data)

/-- `renderSurgeryDetails()`: same handoff shape via the
`selectedSurgery` key. -/
def renderSurgeryDetails (store : Option String) : Except String String :=
  match jsonParse (store.getD "null") with
  | none => .error "SyntaxError: JSON.parse"
  | some data =>
    if jsonFalsy data then .ok noSurgerySelectedHtml
    else .ok (surgeryDetailsHtml data)

/-! ### Specification-side definitions -/

/-- The five searched product columns, in the order of the source's
disjunction. -/
def searchCols : List String :=
  [CONFIG.NAME, CONFIG.DESCRIPTION, CONFIG.BRAND, CONFIG.SHAPE, CONFIG.MATERIAL]

/-- Spec-side match predicate: the query is a case-insensitive substring
of at least one of the five configured fields. -/
def matchesSpec (p : Record) (q : String) : Prop :=
  ∃ col ∈ searchCols, ∃ v, p.lookup col = some v ∧
    (jsToLower q).toList <:+: (jsToLower v).toList

/-- Spec-side image list: the sub-list of non-empty trimmed values of the
three configured image fields, in declared field order (written from the
spec's words, to be compared with `getProductImages`). -/
def specTrimmedImages (p : Record) : List String :=
  imageFields.filterMap (fun f =>
    match p.lookup f with
    | some v => if jsTrim v = "" then none else some (jsTrim v)
    | none => none)

/-! ### Helper lemmas -/

lemma lookup_setField_self (r : Record) (k v : String) :
    (setField r k v).lookup k = some v := by
  induction r with
  | nil => simp [setField, List.lookup_cons]
  | cons hd tl ih =>
    obtain ⟨k', v'⟩ := hd
    by_cases h : k' = k
    · subst h; simp [setField, List.lookup_cons]
    · simp [setField, h, List.lookup_cons, beq_false_of_ne (Ne.symm h), ih]

lemma lookup_setField_ne (r : Record) (k k2 v : String) (h : k ≠ k2) :
    (setField r k2 v).lookup k = r.lookup k := by
  induction r with
  | nil => simp [setField, List.lookup_cons, beq_false_of_ne h]
  | cons hd tl ih =>
    obtain ⟨k', v'⟩ := hd
    by_cases h' : k' = k2
    · subst h'
      simp [setField, List.lookup_cons, beq_false_of_ne h]
    · by_cases hk : k = k'
      · subst hk
        simp [setField, h', List.lookup_cons]
      · simp [setField, h', List.lookup_cons, beq_false_of_ne hk, ih]

lemma buildRecord_lookup_notMem (row : List String) :
    ∀ (hs : List String) (i : Nat) (item : Record) (k : String),
      k ∉ hs.map normalizeHeader →
      (buildRecord hs row i item).lookup k = item.lookup k := by
  intro hs
  induction hs with
  | nil => intro i item k _; rfl
  | cons h t ih =>
    intro i item k hk
    simp only [List.map_cons, List.mem_cons, not_or] at hk
    rw [buildRecord, ih (i + 1) _ k hk.2, lookup_setField_ne _ _ _ _ hk.1]

lemma buildRecord_lookup (row : List String) :
    ∀ (hs : List String) (i : Nat) (item : Record),
      (hs.map normalizeHeader).Nodup →
      ∀ j (hj : j < hs.length),
        (buildRecord hs row i item).lookup (normalizeHeader hs[j]) =
          some (row.getD (i + j) "") := by
  intro hs
  induction hs with
  | nil => intro i item _ j hj; exact absurd hj (by simp)
  | cons h t ih =>
    intro i item hnd j hj
    rw [List.map_cons, List.nodup_cons] at hnd
    cases j with
    | zero =>
      rw [buildRecord]
      simp only [List.getElem_cons_zero]
      rw [buildRecord_lookup_notMem row t (i + 1) _ _ hnd.1,
        lookup_setField_self]
      simp
    | succ j =>
      have hj' : j < t.length := Nat.lt_of_succ_lt_succ hj
      have := ih (i + 1) (setField item (normalizeHeader h) (row.getD i "")) hnd.2 j hj'
      rw [buildRecord]
      simpa [Nat.add_assoc, Nat.add_comm 1 j] using this

lemma parseSheetData_getD (headers : List String) :
    ∀ (rows : List (List String)) (j : Nat), j < rows.length →
      (parseSheetData (some (headers :: rows))).getD j [] =
        parseRow headers (rows.getD j []) := by
  intro rows
  induction rows with
  | nil => intro j hj; exact absurd hj (by simp)
  | cons r rs ih =>
    intro j hj
    cases j with
    | zero => rfl
    | succ j =>
      have hj' : j < rs.length := Nat.lt_of_succ_lt_succ hj
      simpa [parseSheetData] using ih j hj'

lemma charsStartWith_iff : ∀ (p l : List Char),
    charsStartWith p l = true ↔ p <+: l := by
  intro p
  induction p with
  | nil => intro l; simp [charsStartWith]
  | cons a as ih =>
    intro l
    cases l with
    | nil => simp [charsStartWith]
    | cons b bs => simp [charsStartWith, List.cons_prefix_cons, ih]

lemma charsContain_iff (p : List Char) : ∀ (l : List Char),
    charsContain p l = true ↔ p <:+: l := by
  intro l
  induction l with
  | nil => simp [charsContain, charsStartWith_iff, List.infix_nil]
  | cons h t ih =>
    rw [charsContain, List.infix_cons_iff]
    simp [charsStartWith_iff, ih]

lemma strIncludes_iff (hay pat : String) :
    strIncludes hay pat = true ↔ pat.toList <:+: hay.toList :=
  charsContain_iff _ _

lemma fieldIncludes_iff (p : Record) (col sq : String) :
    fieldIncludes p col sq = true ↔
      ∃ v, p.lookup col = some v ∧ sq.toList <:+: (jsToLower v).toList := by
  cases h : p.lookup col <;> simp [fieldIncludes, h, strIncludes_iff]

lemma productMatches_iff (p : Record) (q : String) :
    productMatches (jsToLower q) p = true ↔ matchesSpec p q := by
  simp only [productMatches, Bool.or_eq_true, fieldIncludes_iff,
    matchesSpec, searchCols]
  constructor
  · intro h
    rcases h with ((((h | h) | h) | h) | h)
    · exact ⟨CONFIG.NAME, by simp, h⟩
    · exact ⟨CONFIG.DESCRIPTION, by simp, h⟩
    · exact ⟨CONFIG.BRAND, by simp, h⟩
    · exact ⟨CONFIG.SHAPE, by simp, h⟩
    · exact ⟨CONFIG.MATERIAL, by simp, h⟩
  · rintro ⟨col, hcol, hv⟩
    simp only [List.mem_cons, List.not_mem_nil, or_false] at hcol
    rcases hcol with rfl | rfl | rfl | rfl | rfl
    · exact Or.inl (Or.inl (Or.inl (Or.inl hv)))
    · exact Or.inl (Or.inl (Or.inl (Or.inr hv)))
    · exact Or.inl (Or.inl (Or.inr hv))
    · exact Or.inl (Or.inr hv)
    · exact Or.inr hv

lemma searchProducts_products (q : String) (st : PM) :
    (searchProducts q st).2.products = st.products := by
  by_cases h : q = "" <;> simp [searchProducts, h]

lemma applyOp_products (op : Op) (st : PM) :
    (applyOp op st).products = st.products := by
  cases op <;> simp [applyOp, searchProducts_products]

lemma runOps_products (ops : List Op) : ∀ st : PM,
    (runOps ops st).products = st.products := by
  induction ops with
  | nil => intro st; rfl
  | cons op ops ih =>
    intro st
    rw [runOps, List.foldl_cons]
    have : ops.foldl (fun s op => applyOp op s) (applyOp op st) =
        runOps ops (applyOp op st) := rfl
    rw [this, ih, applyOp_products]

lemma trim_empty : jsTrim "" = "" := rfl

lemma pushImage_foldl (p : Record) : ∀ (fields : List String) (acc : List String),
    fields.foldl (pushImage p) acc = acc ++ fields.filterMap (fun f =>
      match p.lookup f with
      | some v => if jsTrim v = "" then none else some (jsTrim v)
      | none => none) := by
  intro fields
  induction fields with
  | nil => intro acc; simp
  | cons f fs ih =>
    intro acc
    rw [List.foldl_cons, ih, List.filterMap_cons]
    cases h : p.lookup f with
    | none => simp [pushImage, h]
    | some v =>
      by_cases htr : jsTrim v = ""
      · have : ¬(v ≠ "" ∧ jsTrim v ≠ "") := by simp [htr]
        simp [pushImage, h, htr, this]
      · have hv : v ≠ "" := by
          intro hv; rw [hv, trim_empty] at htr; exact htr rfl
        simp [pushImage, h, htr, hv]

lemma runOps_filtered_sublist : ∀ (ops : List Op) (st : PM),
    st.filteredProducts.Sublist st.products →
    (runOps ops st).filteredProducts.Sublist (runOps ops st).products := by
  intro ops
  induction ops with
  | nil => intro st h; exact h
  | cons op ops ih =>
    intro st h
    have hstep : (applyOp op st).filteredProducts.Sublist (applyOp op st).products := by
      cases op with
      | preview _ => exact h
      | byId _ => exact h
      | search q =>
        by_cases hq : q = ""
        · subst hq; simp [applyOp, searchProducts]
        · simp [applyOp, searchProducts, hq, List.filter_sublist]
    exact ih (applyOp op st) hstep

/-! ### Claims -/

/-- Claim C1: for every valid table response whose grid has a header row
(normalizing to pairwise-distinct keys) followed by `rows.length` data
rows, `parseSheetData` produces exactly one record per data row, and each
record maps the normalized form of header `i` to cell `i` of its row,
with the empty string substituted whenever the data row is shorter than
the header. -/
theorem parseSheetData_zips_headers (headers : List String) (rows : List (List String))
    (hnd : (headers.map normalizeHeader).Nodup) :
    (parseSheetData (some (headers :: rows))).length = rows.length
    ∧ ∀ j, j < rows.length → ∀ i, i < headers.length →
        ((parseSheetData (some (headers :: rows))).getD j []).lookup
            (normalizeHeader (headers.getD i "")) =
          some ((rows.getD j []).getD i "") := by
  refine ⟨by simp [parseSheetData], ?_⟩
  intro j hj i hi
  rw [parseSheetData_getD headers rows j hj]
  have h2 := buildRecord_lookup (rows.getD j []) headers 0 [] hnd i hi
  rw [List.getD_eq_getElem headers "" hi, parseRow]
  simpa using h2

/-- Witness for C1: a concrete two-column header with one short data row;
the second cell is substituted by the empty string. -/
theorem parseSheetData_zips_headers_witness :
    (parseSheetData (some (["Product Name", "Basic Description"] :: [["X"]]))).length = 1
    ∧ ((parseSheetData (some (["Product Name", "Basic Description"] :: [["X"]]))).getD 0 []).lookup
        "product_name" = some "X"
    ∧ ((parseSheetData (some (["Product Name", "Basic Description"] :: [["X"]]))).getD 0 []).lookup
        "basic_description" = some "" := by
  have h := parseSheetData_zips_headers ["Product Name", "Basic Description"] [["X"]]
    (by decide)
  exact ⟨h.1, h.2 0 (by decide) 0 (by decide), h.2 0 (by decide) 1 (by decide)⟩

/-- Claim C2: every fetch failure — network rejection, non-success HTTP
status, or source-reported error payload — is swallowed by `loadProducts`
and `loadGallery`: both return the empty list as a plain value (the
return type is a pair, not an exception), so the caller of load never
observes a thrown error. -/
theorem load_swallows_failures (st : PM) (gst : GM) :
    (∀ m, (loadProducts (.netFail m) st).1 = [] ∧ (loadGallery (.netFail m) gst).1 = [])
    ∧ (∀ s, (loadProducts (.httpErr s) st).1 = [] ∧ (loadGallery (.httpErr s) gst).1 = [])
    ∧ (∀ b, b.error.isSome = true →
        (loadProducts (.httpOk b) st).1 = [] ∧ (loadGallery (.httpOk b) gst).1 = []) := by
  refine ⟨fun m => ⟨rfl, rfl⟩, fun s => ⟨rfl, rfl⟩, fun b hb => ?_⟩
  obtain ⟨e, v⟩ := b
  cases e with
  | none => simp at hb
  | some m => exact ⟨rfl, rfl⟩

/-- Witness for C2 at a concrete error payload and a concrete network
rejection. -/
theorem load_swallows_failures_witness :
    (loadProducts (.httpOk ⟨some "API key invalid", none⟩) ⟨[], []⟩).1 = []
    ∧ (loadProducts (.netFail "network down") ⟨[], []⟩).1 = [] := by
  have h := load_swallows_failures ⟨[], []⟩ ⟨[]⟩
  exact ⟨(h.2.2 ⟨some "API key invalid", none⟩ rfl).1, (h.1 "network down").1⟩

/-- Claim C3: for every loaded product list and non-empty query,
`searchProducts` returns exactly the products for which the query is a
case-insensitive substring of at least one of the five configured fields
(name, description, brand, shape, material), in original table order
(an order-preserving sublist of the full list), and stores that list as
the filtered view; an empty query resets the filtered view to the full
product list and returns it. -/
theorem searchProducts_spec (st : PM) (q : String) :
    (q ≠ "" →
      (∀ p, p ∈ (searchProducts q st).1 ↔ p ∈ st.products ∧ matchesSpec p q)
      ∧ (searchProducts q st).1.Sublist st.products
      ∧ (searchProducts q st).2.filteredProducts = (searchProducts q st).1)
    ∧ (searchProducts "" st).1 = st.products
    ∧ (searchProducts "" st).2.filteredProducts = st.products := by
  refine ⟨fun hq => ?_, by simp [searchProducts], by simp [searchProducts]⟩
  have hs : searchProducts q st =
      (st.products.filter (productMatches (jsToLower q)),
       { st with filteredProducts := st.products.filter (productMatches (jsToLower q)) }) := by
    simp [searchProducts, hq]
  rw [hs]
  refine ⟨fun p => ?_, List.filter_sublist _, rfl⟩
  simp [List.mem_filter, productMatches_iff]

/-- Witness for C3: `search("tita")` matches the record named
"Titanium Frame", and an empty query returns the full list. -/
theorem searchProducts_spec_witness :
    [("product_name", "Titanium Frame")] ∈
      (searchProducts "tita" ⟨[[("product_name", "Titanium Frame")]], []⟩).1
    ∧ (searchProducts "" ⟨[[("product_name", "Titanium Frame")]], []⟩).1 =
        [[("product_name", "Titanium Frame")]] := by
  have h := searchProducts_spec ⟨[[("product_name", "Titanium Frame")]], []⟩ "tita"
  refine ⟨((h.1 (by decide)).1 _).mpr ⟨by simp, ?_⟩, h.2.1⟩
  exact ⟨CONFIG.NAME, by simp [searchCols], "Titanium Frame", by decide, by decide⟩

/-- Claim C4: search is idempotent — applying the same query twice gives
the same result and state as applying it once — and an empty query after
any sequence of searches restores the full unfiltered product list, never
an intermediate filtered view. -/
theorem search_idempotent_reset (st : PM) (q : String) (qs : List String) :
    searchProducts q (searchProducts q st).2 = searchProducts q st
    ∧ (searchProducts "" (runOps (qs.map Op.search) st)).1 = st.products
    ∧ (searchProducts "" (runOps (qs.map Op.search) st)).2.filteredProducts
        = st.products := by
  have hrun : (runOps (qs.map Op.search) st).products = st.products :=
    runOps_products _ st
  refine ⟨?_, by simp [searchProducts, hrun], by simp [searchProducts, hrun]⟩
  by_cases hq : q = ""
  · subst hq; simp [searchProducts]
  · simp [searchProducts, hq]

/-- Claim C5: starting from any state whose filtered view is an
order-preserving sublist of the full list (as after a completed load),
no sequence of preview / byId / search operations ever mutates the full
product list, and the filtered view remains an order-preserving sublist
of it. -/
theorem catalog_invariant (ops : List Op) (st : PM)
    (h : st.filteredProducts.Sublist st.products) :
    (runOps ops st).products = st.products
    ∧ (runOps ops st).filteredProducts.Sublist (runOps ops st).products :=
  ⟨runOps_products ops st, runOps_filtered_sublist ops st h⟩

/-- Witness for C5 on a concrete one-product state and operation
sequence. -/
theorem catalog_invariant_witness :
    (runOps [Op.search "zeiss", Op.preview 3, Op.search ""]
        ⟨[[("brand_name", "Zeiss")]], [[("brand_name", "Zeiss")]]⟩).products
      = [[("brand_name", "Zeiss")]]
    ∧ (runOps [Op.search "zeiss", Op.preview 3, Op.search ""]
        ⟨[[("brand_name", "Zeiss")]], [[("brand_name", "Zeiss")]]⟩).filteredProducts.Sublist
        (runOps [Op.search "zeiss", Op.preview 3, Op.search ""]
          ⟨[[("brand_name", "Zeiss")]], [[("brand_name", "Zeiss")]]⟩).products :=
  catalog_invariant _ _ (List.Sublist.refl _)

/-- Claim C6: for a non-empty category, `filterByCategory` returns
exactly the gallery items whose category field equals the given category
under case-insensitive comparison (exact equality, not substring), in
original order; it always filters the full gallery list (the manager
holds no other view, so the result replaces rather than composes with
any previous filtering); an empty category yields the full gallery
list. -/
theorem filterByCategory_spec (gst : GM) (c : String) :
    (c ≠ "" →
      (∀ it, it ∈ filterByCategory c gst ↔ it ∈ gst.galleryItems ∧
        ∃ v, it.lookup CONFIG.CATEGORY = some v ∧ jsToLower v = jsToLower c)
      ∧ (filterByCategory c gst).Sublist gst.galleryItems)
    ∧ filterByCategory "" gst = gst.galleryItems := by
  refine ⟨fun hc => ?_, by simp [filterByCategory]⟩
  have hs : filterByCategory c gst = gst.galleryItems.filter (fun item =>
      match item.lookup CONFIG.CATEGORY with
      | some v => jsToLower v == jsToLower c
      | none => false) := by
    simp [filterByCategory, hc]
  rw [hs]
  refine ⟨fun it => ?_, List.filter_sublist _⟩
  rw [List.mem_filter]
  cases h : it.lookup CONFIG.CATEGORY <;> simp [h]

/-- Witness for C6: "LASIK" matches the item categorized "lasik" but not
the one categorized "lasik surgery"; an empty category returns the full
list. -/
theorem filterByCategory_spec_witness :
    [("category", "lasik")] ∈ filterByCategory "LASIK"
      ⟨[[("category", "lasik")], [("category", "lasik surgery")]]⟩
    ∧ [("category", "lasik surgery")] ∉ filterByCategory "LASIK"
      ⟨[[("category", "lasik")], [("category", "lasik surgery")]]⟩
    ∧ filterByCategory "" ⟨[[("category", "lasik")]]⟩ = [[("category", "lasik")]] := by
  have h := filterByCategory_spec
    ⟨[[("category", "lasik")], [("category", "lasik surgery")]]⟩ "LASIK"
  have h2 := filterByCategory_spec ⟨[[("category", "lasik")]]⟩ ""
  refine ⟨((h.1 (by decide)).1 _).mpr ⟨by simp, "lasik", by decide, by decide⟩,
    fun hmem => ?_, h2.2⟩
  obtain ⟨-, v, hv, heq⟩ := ((h.1 (by decide)).1 _).mp hmem
  have hv' : v = "lasik surgery" := by
    have := hv
    simp [CONFIG.CATEGORY, List.lookup_cons] at this
    exact this.symm
  subst hv'
  exact absurd heq (by decide)

/-- Claim C7: `getProductImages` returns the sub-list of non-empty
trimmed values of the three configured image fields in declared order,
or the single fixed placeholder URL when all three are missing, empty or
whitespace-only; the result is therefore never empty. -/
theorem getProductImages_spec (p : Record) :
    getProductImages p =
      (if specTrimmedImages p = [] then [placeholderImage] else specTrimmedImages p)
    ∧ getProductImages p ≠ [] := by
  have hfold : imageFields.foldl (pushImage p) [] = specTrimmedImages p := by
    rw [pushImage_foldl]
    simp [specTrimmedImages]
  have hg : getProductImages p =
      if (specTrimmedImages p).length > 0 then specTrimmedImages p
      else [placeholderImage] := by
    simp only [getProductImages, hfold]
  constructor
  · rw [hg]
    rcases hs : specTrimmedImages p with _ | ⟨a, l⟩ <;> simp
  · rw [hg]
    rcases hs : specTrimmedImages p with _ | ⟨a, l⟩ <;> simp

/-- Counterexample to claim C8 as stated: a grid whose first row is the
empty header followed by one data row yields one field-less record, not
the empty list. -/
theorem parseSheetData_emptyHeader_counterexample :
    parseSheetData (some [[], ["a"]]) ≠ [] := by decide

/-- Claim C8 (amended): when the header row is empty the data rows are
not dropped — each one parses to a record with no fields, so the grid
yields as many empty records as data rows — while a missing or fully
empty grid yields the empty list; no case is an error. -/
theorem parseSheetData_emptyHeader (rows : List (List String)) :
    parseSheetData (some ([] :: rows)) = rows.map (fun _ => ([] : Record))
    ∧ parseSheetData none = [] ∧ parseSheetData (some []) = [] :=
  ⟨rfl, rfl, rfl⟩

/-- Counterexample to claim C9 as stated: a malformed (non-JSON) handoff
payload does not degrade to the "nothing selected" markup — `JSON.parse`
throws and the error escapes both detail render paths. -/
theorem renderDetails_malformed_counterexample :
    (renderProductDetails (some "notjson")).isOk = false
    ∧ (renderSurgeryDetails (some "notjson")).isOk = false := by
  exact ⟨rfl, rfl⟩

/-- Claim C9 (amended): an absent handoff payload (or one parsing to a
falsy JSON value) renders the fixed "nothing selected, go back" markup on
both detail pages; a payload that is not valid JSON, however, makes the
render path fail with the propagated parse error. -/
theorem renderDetails_handoff (s : String) :
    renderProductDetails none = Except.ok noProductSelectedHtml
    ∧ renderSurgeryDetails none = Except.ok noSurgerySelectedHtml
    ∧ ((jsonParse s).isNone = true →
        (renderProductDetails (some s)).isOk = false
        ∧ (renderSurgeryDetails (some s)).isOk = false) := by
  refine ⟨rfl, rfl, fun h => ?_⟩
  have h' : jsonParse s = none := Option.isNone_iff_eq_none.mp h
  simp [renderProductDetails, renderSurgeryDetails, h', Except.isOk, Except.toBool]

/-- Witness for the amended C9: absent payload renders the fixed markup;
the concrete malformed payload "oops" fails. -/
theorem renderDetails_handoff_witness :
    renderProductDetails none = Except.ok noProductSelectedHtml
    ∧ (renderProductDetails (some "oops")).isOk = false := by
  have h := renderDetails_handoff "oops"
  exact ⟨h.1, (h.2.2 rfl).1⟩

/-- Claim C10: a record missing any or all of the five searched fields
never breaks `searchProducts` (the embedding is total); in particular a
record lacking all five fields cannot match a non-empty query and is
never included in the result. -/
theorem searchProducts_missing_fields (st : PM) (q : String) (p : Record)
    (hq : q ≠ "")
    (h1 : p.lookup CONFIG.NAME = none) (h2 : p.lookup CONFIG.DESCRIPTION = none)
    (h3 : p.lookup CONFIG.BRAND = none) (h4 : p.lookup CONFIG.SHAPE = none)
    (h5 : p.lookup CONFIG.MATERIAL = none) :
    p ∉ (searchProducts q st).1 := by
  intro hmem
  simp [searchProducts, hq, List.mem_filter, productMatches, fieldIncludes,
    h1, h2, h3, h4, h5] at hmem

/-- Witness for C10: a record with only an `id` field is excluded from a
concrete non-empty search over a catalog containing it. -/
theorem searchProducts_missing_fields_witness :
    [("id", "7")] ∉ (searchProducts "x" ⟨[[("id", "7")]], []⟩).1 :=
  searchProducts_missing_fields ⟨[[("id", "7")]], []⟩ "x" [("id", "7")]
    (by decide) (by decide) (by decide) (by decide) (by decide) (by decide)
